import Mathlib

/-!
# Verification of the Neon Runner simulation core

Shallow embedding of the `GameEngine` class (src/App.tsx, second source
file) of the Neon Runner repository.  All numeric quantities of the engine
are JavaScript numbers holding exact decimal values; they are modelled as
rationals (`ℚ`).  Rendering-only state (three.js scene objects, particles,
ground-segment decorations, camera, player lean/rotation, scale) is not
part of the simulation logic and is omitted; every field and branch that
the game logic reads is kept.

Callbacks are modelled as event logs inside the state: `reported` holds the
last `onScoreChange` payload and `gameOverPayloads` accumulates the
`onGameOver` payloads, one entry per invocation.
-/

/-- `GameState` enum from src/types.ts. -/
inductive GState where
  | MENU
  | PLAYING
  | GAME_OVER
deriving DecidableEq, Repr

/-- `CollisionType` enum from src/types.ts. -/
inductive CollisionType where
  | SOLID
  | JUMP
  | DUCK
  | COIN
deriving DecidableEq, Repr

/-- The `action` field of `LaneAnalysis` (`'none' | 'jump' | 'duck'`). -/
inductive RAction where
  | none
  | jump
  | duck
deriving DecidableEq, Repr

/-- An element of `this.obstacles`: a hazard or coin.  Mirrors the
`userData` fields (`active`, `lane`, `collisionType`) plus the logical
part of `position` (`x` and `z`; `position.y` of an obstacle is never
read by the game logic). -/
structure Obstacle where
  x : ℚ
  z : ℚ
  lane : Int
  ctype : CollisionType
  active : Bool
deriving DecidableEq, Repr

/-- The `LaneAnalysis` interface of src/App.tsx.  `threatType` uses
`Option CollisionType` for `CollisionType | 'none'`. -/
structure LaneAnalysis where
  lane : Int
  isDeadly : Bool
  isBlockedSide : Bool
  action : RAction
  score : ℚ
  distanceToThreat : ℚ
  threatType : Option CollisionType
  firstSolidDist : ℚ
deriving DecidableEq, Repr

/-- The mutable simulation state of `GameEngine` (logic fields only). -/
structure Game where
  gstate : GState
  score : Int
  reported : Int
  distanceTraveled : ℚ
  gameSpeed : ℚ
  currentLane : Int
  lastSafeLane : Int
  playerX : ℚ
  playerY : ℚ
  playerVelocityY : ℚ
  isJumping : Bool
  isRolling : Bool
  rollTimer : Int
  autoPilotEnabled : Bool
  aiLaneChangeCooldown : Int
  obstacles : List Obstacle
  gameOverPayloads : List Int
deriving DecidableEq, Repr

/-! ## Configuration constants (the `config` object and literals) -/

def laneWidth : ℚ := 4
def startSpeed : ℚ := 0.6
def maxSpeed : ℚ := 2.8
def speedIncrement : ℚ := 0.0002
def jumpForce : ℚ := 0.38
def gravity : ℚ := 0.020
def playerBaseY : ℚ := 1
def spawnZ : ℚ := -180

/-! ## Control surface (`moveLeft`, `moveRight`, `setLane`, `jump`,
`roll`, `toggleAutoPilot`, `start`) -/

/-- `moveLeft()`: `if (this.currentLane > -1) this.currentLane--`. -/
def moveLeftCmd (g : Game) : Game :=
  if g.currentLane > -1 then { g with currentLane := g.currentLane - 1 } else g

/-- `moveRight()`: `if (this.currentLane < 1) this.currentLane++`. -/
def moveRightCmd (g : Game) : Game :=
  if g.currentLane < 1 then { g with currentLane := g.currentLane + 1 } else g

/-- `setLane(l)`: `this.currentLane = l` (no clamping). -/
def setLaneCmd (g : Game) (l : Int) : Game :=
  { g with currentLane := l }

/-- `jump()`: starts a jump unless already jumping; note that it also
clears `isRolling`. -/
def jumpCmd (g : Game) : Game :=
  if g.isJumping = true then g
  else { g with isJumping := true, playerVelocityY := jumpForce, isRolling := false }

/-- `roll()`: starts a roll only when neither jumping nor rolling. -/
def rollCmd (g : Game) : Game :=
  if g.isJumping = true ∨ g.isRolling = true then g
  else { g with isRolling := true, rollTimer := 40 }

/-- `toggleAutoPilot(v)` (the rendering resets are omitted). -/
def toggleAutoPilotCmd (g : Game) (v : Bool) : Game :=
  { g with autoPilotEnabled := v }

/-- `start()`: resets the run unless already playing.  `rollTimer` is not
reset by the source and `onScoreChange` is not invoked. -/
def startCmd (g : Game) : Game :=
  if g.gstate = GState.PLAYING then g
  else
    { g with
      score := 0
      distanceTraveled := 0
      gameSpeed := startSpeed
      currentLane := 0
      lastSafeLane := 0
      playerVelocityY := 0
      isJumping := false
      isRolling := false
      aiLaneChangeCooldown := 0
      obstacles := []
      playerX := 0
      playerY := 1
      gstate := GState.PLAYING }

/-- `gameOver()`: terminal transition; appends the `onGameOver(this.score)`
payload.  The source has no idempotence guard. -/
def gameOverStep (g : Game) : Game :=
  { g with
    gstate := GState.GAME_OVER
    gameOverPayloads := g.gameOverPayloads ++ [g.score] }

/-! ## Lane analysis (`analyzeLane`) -/

/-- Stable insertion preserving a descending order on `z`: an element is
placed before the first strictly smaller `z`, so elements with equal `z`
keep their original relative order, matching the stable
`sort((a, b) => b.position.z - a.position.z)` of the source. -/
def insertZDesc (o : Obstacle) : List Obstacle → List Obstacle
  | [] => [o]
  | b :: t => if b.z ≤ o.z then o :: b :: t else b :: insertZDesc o t

/-- Stable sort of the lane's obstacles by descending `z`. -/
def sortZDesc : List Obstacle → List Obstacle
  | [] => []
  | o :: t => insertZDesc o (sortZDesc t)

/-- The body of the `for (const obs of laneObs)` loop of `analyzeLane`,
processing a single obstacle against the running analysis. -/
def analyzeStep (jmp rol : Bool) (st : LaneAnalysis) (o : Obstacle) : LaneAnalysis :=
  let z := o.z
  let dist := |z|
  let st1 :=
    if -4 < z ∧ z < 5 ∧ o.ctype ≠ CollisionType.COIN then
      { st with isBlockedSide := true, score := -999999 }
    else st
  if o.ctype = CollisionType.COIN then
    { st1 with score := st1.score + 50 }
  else if z < 0 then
    let st2 :=
      if dist < st1.distanceToThreat then
        { st1 with distanceToThreat := dist, threatType := some o.ctype }
      else st1
    match o.ctype with
    | CollisionType.SOLID =>
        { st2 with
          isDeadly := true
          firstSolidDist := if dist < st2.firstSolidDist then dist else st2.firstSolidDist
          score := st2.score - 100000 / (dist + 1) }
    | CollisionType.JUMP =>
        let st3 := if st2.action = RAction.none then { st2 with action := RAction.jump } else st2
        let st4 := { st3 with score := st3.score - 100 }
        if rol = true ∧ dist < 30 then { st4 with score := st4.score - 5000 } else st4
    | CollisionType.DUCK =>
        let st3 := if st2.action = RAction.none then { st2 with action := RAction.duck } else st2
        let st4 := { st3 with score := st3.score - 100 }
        if jmp = true ∧ dist < 30 then { st4 with score := st4.score - 5000 } else st4
    | CollisionType.COIN => st2
  else st1

/-- The filter predicate of `analyzeLane`: active, matching lane, within
`(-range, 10)` longitudinally. -/
def laneFilter (laneIdx : Int) (range : ℚ) (o : Obstacle) : Bool :=
  o.active && (o.lane == laneIdx) && decide (o.z > -range) && decide (o.z < 10)

/-- `analyzeLane(laneIdx, range)`: pure function of the obstacle set and
the player's current motion flags. -/
def analyzeLane (obstacles : List Obstacle) (jmp rol : Bool)
    (laneIdx : Int) (range : ℚ) : LaneAnalysis :=
  let laneObs := sortZDesc (obstacles.filter (laneFilter laneIdx range))
  let res := laneObs.foldl (analyzeStep jmp rol)
    { lane := laneIdx
      isDeadly := false
      isBlockedSide := false
      action := RAction.none
      score := 5000
      distanceToThreat := 9999
      threatType := Option.none
      firstSolidDist := 9999 }
  { res with score := res.score + (if laneIdx = 0 then 10 else 0) }

/-! ## Navigator (`updateAI`) -/

/-- Vision range `800 + speed * 400` used by `updateAI`. -/
def aiRange (g : Game) : ℚ := 800 + g.gameSpeed * 400

/-- The per-lane analyses `[-1, 0, 1].map(l => this.analyzeLane(l, visionRange))`. -/
def analysisOf (g : Game) : List LaneAnalysis :=
  [analyzeLane g.obstacles g.isJumping g.isRolling (-1) (aiRange g),
   analyzeLane g.obstacles g.isJumping g.isRolling 0 (aiRange g),
   analyzeLane g.obstacles g.isJumping g.isRolling 1 (aiRange g)]

/-- Totalising default for `Array.prototype.find` (in the source an absent
lane would yield `undefined` and crash; it is unreachable while
`currentLane ∈ {-1, 0, 1}`). -/
def dfltAnalysis : LaneAnalysis :=
  { lane := 99
    isDeadly := false
    isBlockedSide := false
    action := RAction.none
    score := 0
    distanceToThreat := 9999
    threatType := Option.none
    firstSolidDist := 9999 }

/-- `analysis.find(a => a.lane === lane)`. -/
def findLane (analysis : List LaneAnalysis) (lane : Int) : LaneAnalysis :=
  (analysis.find? (fun a => a.lane == lane)).getD dfltAnalysis

/-- Head of the stable descending-by-score sort
`analysis.sort((a, b) => b.score - a.score)[0]`: the earliest element of
maximal score. -/
def bestAnalysis (analysis : List LaneAnalysis) : LaneAnalysis :=
  match analysis with
  | [] => dfltAnalysis
  | a :: t => t.foldl (fun b x => if b.score < x.score then x else b) a

/-- The emergency test of `updateAI`: current lane's nearest solid is
inside the speed-scaled imminent-impact threshold. -/
def aiEmergency (g : Game) : Bool :=
  decide ((findLane (analysisOf g) g.currentLane).firstSolidDist < 100 + g.gameSpeed * 20)

/-- The lane decision of `updateAI` (emergency and optimization branches):
given the current lane, current speed, post-decrement cooldown and the
three analyses, returns the target lane and the new cooldown. -/
def laneDecision (current : Int) (speed : ℚ) (cd : Int)
    (analysis : List LaneAnalysis) : Int × Int :=
  let cur := findLane analysis current
  let best := bestAnalysis analysis
  let isEmergency : Bool := decide (cur.firstSolidDist < 100 + speed * 20)
  let cd1 := if isEmergency = true then 0 else cd
  if isEmergency = true then
    if best.lane ≠ current then
      let direction : Int := if best.lane - current > 0 then 1 else -1
      let nextStepLane := current + direction
      let ns := findLane analysis nextStepLane
      if ns.isBlockedSide = false ∧
          (ns.firstSolidDist > 30 ∨
            (ns.firstSolidDist > 20 ∧ ns.firstSolidDist > cur.firstSolidDist)) then
        (nextStepLane, cd1)
      else (current, cd1)
    else (current, cd1)
  else
    if cd ≤ 0 then
      if best.score > cur.score + 50 ∧ best.firstSolidDist > 300 ∧
          best.isBlockedSide = false then
        (best.lane, 20)
      else (current, cd1)
    else (current, cd1)

/-- `updateAI()`: cooldown decrement, lane decision via the three lane
analyses, then reflex execution (jump/roll through the same control
surface as manual input).  Telemetry publication has no effect on the
simulation and is omitted. -/
def updateAI (g : Game) : Game :=
  let g0 := if g.aiLaneChangeCooldown > 0 then
      { g with aiLaneChangeCooldown := g.aiLaneChangeCooldown - 1 }
    else g
  let analysis := analysisOf g0
  let tc := laneDecision g0.currentLane g0.gameSpeed g0.aiLaneChangeCooldown analysis
  let g1 := { g0 with currentLane := tc.1, aiLaneChangeCooldown := tc.2 }
  let eff := findLane analysis g1.currentLane
  let tti := eff.distanceToThreat / g1.gameSpeed
  if eff.action = RAction.jump ∧ tti < 25 ∧ tti > 5 then jumpCmd g1
  else if eff.action = RAction.duck ∧ tti < 25 ∧ tti > 5 then rollCmd g1
  else g1

/-! ## Player physics (the physics section of `update`) -/

/-- Lane easing, snap-to-lane, jump-arc integration and roll countdown. -/
def physicsStep (g : Game) : Game :=
  let targetX := (g.currentLane : ℚ) * laneWidth
  let lerpFactor : ℚ := if g.autoPilotEnabled = true then 0.8 else 0.3
  let x1 := g.playerX + (targetX - g.playerX) * lerpFactor
  let x2 :=
    if g.autoPilotEnabled = true ∧ |x1 - targetX| < 0.2 then targetX
    else if g.autoPilotEnabled = false ∧ |x1 - targetX| < 0.05 then targetX
    else x1
  if g.isJumping = true then
    let y1 := g.playerY + g.playerVelocityY
    let vy1 := g.playerVelocityY - gravity
    if y1 ≤ playerBaseY then
      { g with playerX := x2, playerY := playerBaseY, isJumping := false,
               playerVelocityY := 0 }
    else
      { g with playerX := x2, playerY := y1, playerVelocityY := vy1 }
  else if g.isRolling = true then
    let t1 := g.rollTimer - 1
    if t1 ≤ 0 then { g with playerX := x2, rollTimer := t1, isRolling := false }
    else { g with playerX := x2, rollTimer := t1 }
  else { g with playerX := x2 }

/-! ## Collision resolution (the obstacle loop of `update`) -/

/-- One iteration of the obstacle loop: advance the obstacle by the
current speed, resolve contact (coin collection or survival rule), then
drop it once past the trailing cutoff `z > 15`.  Returns the updated
shared state and `none` when the obstacle is removed. -/
def collideOne (g : Game) (o : Obstacle) : Game × Option Obstacle :=
  let z1 := o.z + g.gameSpeed
  let res : Game × Obstacle :=
    if o.active = true ∧ -1 < z1 ∧ z1 < 1 ∧ |o.x - g.playerX| < 1.2 then
      if o.ctype = CollisionType.COIN then
        ({ g with score := g.score + 500 }, { o with z := z1, active := false })
      else
        let safe := (o.ctype = CollisionType.JUMP ∧ g.playerY > 1.2) ∨
                    (o.ctype = CollisionType.DUCK ∧ g.isRolling = true)
        (if safe then g else gameOverStep g, { o with z := z1 })
    else (g, { o with z := z1 })
  if res.2.z > 15 then (res.1, Option.none) else (res.1, some res.2)

/-- The obstacle loop runs from the end of the array towards the front
(`for (let i = this.obstacles.length - 1; i >= 0; i--)`): the recursion
threads the state through the tail first. -/
def collideList (g : Game) : List Obstacle → Game × List Obstacle
  | [] => (g, [])
  | o :: rest =>
      let pr := collideList g rest
      let qr := collideOne pr.1 o
      match qr.2 with
      | some o2 => (qr.1, o2 :: pr.2)
      | Option.none => (qr.1, pr.2)

/-- Collision scan over the current obstacle list. -/
def collideScan (g : Game) : Game :=
  let pr := collideList g g.obstacles
  { pr.1 with obstacles := pr.2 }

/-! ## Spawner (`spawnObstacleRow`, `createObstacleAt`, `spawnCoin`) -/

/-- Random draws consumed by one row spawn, one pair per lane plus the
safe-lane choice; each stands for a `Math.random()` value in `[0, 1)`. -/
structure LaneRand where
  place : ℚ
  typeRand : ℚ
deriving DecidableEq, Repr

/-- Randomness for one tick (one potential row spawn). -/
structure RowRand where
  laneR : ℚ
  lm1 : LaneRand
  l0 : LaneRand
  lp1 : LaneRand
deriving DecidableEq, Repr

/-- The candidate safe lanes `[prev] ++ [prev-1]? ++ [prev+1]?` in push
order. -/
def possibleLanes (prev : Int) : List Int :=
  [prev] ++ (if prev > -1 then [prev - 1] else []) ++ (if prev < 1 then [prev + 1] else [])

/-- `possibleLanes[Math.floor(r * possibleLanes.length)]` (totalised with
the previous lane as default; the index is in range for `r ∈ [0, 1)`). -/
def chooseSafeLane (prev : Int) (r : ℚ) : Int :=
  let lanes := possibleLanes prev
  lanes.getD (Int.toNat ⌊r * (lanes.length : ℚ)⌋) prev

/-- `createObstacleAt`: hazard kind from `typeRand`
(`< 0.25` JUMP, `< 0.5` DUCK, else SOLID). -/
def hazardType (typeRand : ℚ) : CollisionType :=
  if typeRand < 0.25 then CollisionType.JUMP
  else if typeRand < 0.5 then CollisionType.DUCK
  else CollisionType.SOLID

/-- The objects one lane contributes to a row at longitudinal position
`z`: a coin with probability draw `< 0.3` on the safe lane, a hazard with
draw `< 0.8` elsewhere. -/
def rowLane (safe : Int) (z : ℚ) (laneIdx : Int) (r : LaneRand) : List Obstacle :=
  let x := (laneIdx : ℚ) * laneWidth
  if laneIdx = safe then
    if r.place < 0.3 then
      [{ x := x, z := z, lane := laneIdx, ctype := CollisionType.COIN, active := true }]
    else []
  else
    if r.place < 0.8 then
      [{ x := x, z := z, lane := laneIdx, ctype := hazardType r.typeRand, active := true }]
    else []

/-- `spawnObstacleRow(z)`: choose the row's safe lane among the lanes
adjacent to the previous one, then populate the three lanes in order. -/
def spawnObstacleRow (g : Game) (r : RowRand) (z : ℚ) : Game :=
  let safe := chooseSafeLane g.lastSafeLane r.laneR
  { g with
    lastSafeLane := safe
    obstacles := g.obstacles ++
      rowLane safe z (-1) r.lm1 ++ rowLane safe z 0 r.l0 ++ rowLane safe z 1 r.lp1 }

/-- The spawn gate of `update`: a row is emitted when the obstacle list is
empty or its last element (the most recently spawned, hence the one of
minimal `z`) has advanced past `spawnZ + minGap` with
`minGap = 50 + gameSpeed * 30`. -/
def shouldSpawn (l : List Obstacle) (speed : ℚ) : Bool :=
  match l.getLast? with
  | Option.none => true
  | some o => decide (o.z > spawnZ + (50 + speed * 30))

/-! ## The frame tick (`update` and `animate`) -/

/-- One `update()` call: clock advance and score report, navigator (when
enabled), player physics, obstacle loop, spawn gate.  Rendering-only work
(segments, glitter, particles, camera) is omitted. -/
def update (g : Game) (r : RowRand) : Game :=
  let s1 := min maxSpeed (g.gameSpeed + speedIncrement)
  let d1 := g.distanceTraveled + s1
  let sc1 : Int := ⌊d1 * 10⌋
  let g1 := { g with gameSpeed := s1, distanceTraveled := d1, score := sc1, reported := sc1 }
  let g2 := if g1.autoPilotEnabled = true then updateAI g1 else g1
  let g3 := physicsStep g2
  let g4 := collideScan g3
  if shouldSpawn g4.obstacles g4.gameSpeed then spawnObstacleRow g4 r spawnZ else g4

/-- `animate()` runs `update` only while `state === GameState.PLAYING`;
after the terminal transition the scheduling callback is cancelled, so no
tick executes. -/
def tick (g : Game) (r : RowRand) : Game :=
  if g.gstate = GState.PLAYING then update g r else g

/-- The state established by the `GameEngine` constructor. -/
def initGame : Game :=
  { gstate := GState.MENU
    score := 0
    reported := 0
    distanceTraveled := 0
    gameSpeed := 0
    currentLane := 0
    lastSafeLane := 0
    playerX := 0
    playerY := 1
    playerVelocityY := 0
    isJumping := false
    isRolling := false
    rollTimer := 0
    autoPilotEnabled := false
    aiLaneChangeCooldown := 0
    obstacles := []
    gameOverPayloads := [] }

/-- External events driving the engine: manual commands, autopilot
toggling, `start()`, and frame ticks. -/
inductive Ev where
  | mvLeft
  | mvRight
  | doJump
  | doRoll
  | setAP (v : Bool)
  | doStart
  | doTick (r : RowRand)
deriving DecidableEq, Repr

/-- Apply one event. -/
def applyEv (g : Game) (e : Ev) : Game :=
  match e with
  | Ev.mvLeft => moveLeftCmd g
  | Ev.mvRight => moveRightCmd g
  | Ev.doJump => jumpCmd g
  | Ev.doRoll => rollCmd g
  | Ev.setAP v => toggleAutoPilotCmd g v
  | Ev.doStart => startCmd g
  | Ev.doTick r => tick g r

/-- Run an event sequence from the constructor state. -/
def runEvents (es : List Ev) : Game :=
  es.foldl applyEv initGame

/-! ## Field-preservation lemmas -/

theorem jumpCmd_keeps (g : Game) :
    (jumpCmd g).gameSpeed = g.gameSpeed ∧ (jumpCmd g).currentLane = g.currentLane ∧
    (jumpCmd g).gstate = g.gstate := by
  unfold jumpCmd; split <;> exact ⟨rfl, rfl, rfl⟩

theorem rollCmd_keeps (g : Game) :
    (rollCmd g).gameSpeed = g.gameSpeed ∧ (rollCmd g).currentLane = g.currentLane ∧
    (rollCmd g).gstate = g.gstate := by
  unfold rollCmd; split <;> exact ⟨rfl, rfl, rfl⟩

theorem updateAI_gameSpeed (g : Game) : (updateAI g).gameSpeed = g.gameSpeed := by
  simp only [updateAI, jumpCmd, rollCmd]
  split_ifs <;> rfl

theorem physicsStep_gameSpeed (g : Game) : (physicsStep g).gameSpeed = g.gameSpeed := by
  simp only [physicsStep]
  split_ifs <;> rfl

theorem collideOne_keeps (g : Game) (o : Obstacle) :
    (collideOne g o).1.gameSpeed = g.gameSpeed ∧
    (collideOne g o).1.playerX = g.playerX ∧
    (collideOne g o).1.playerY = g.playerY ∧
    (collideOne g o).1.isRolling = g.isRolling ∧
    (collideOne g o).1.isJumping = g.isJumping ∧
    (collideOne g o).1.obstacles = g.obstacles := by
  simp only [collideOne, gameOverStep]
  split_ifs <;> exact ⟨rfl, rfl, rfl, rfl, rfl, rfl⟩

theorem collideList_keeps (g : Game) (l : List Obstacle) :
    (collideList g l).1.gameSpeed = g.gameSpeed ∧
    (collideList g l).1.playerX = g.playerX ∧
    (collideList g l).1.playerY = g.playerY ∧
    (collideList g l).1.isRolling = g.isRolling ∧
    (collideList g l).1.isJumping = g.isJumping ∧
    (collideList g l).1.obstacles = g.obstacles := by
  induction l with
  | nil => exact ⟨rfl, rfl, rfl, rfl, rfl, rfl⟩
  | cons o rest ih =>
      have h1 := collideOne_keeps (collideList g rest).1 o
      simp only [collideList]
      cases hq : (collideOne (collideList g rest).1 o).2 <;> simp only [hq] <;>
        exact ⟨h1.1.trans ih.1, h1.2.1.trans ih.2.1, h1.2.2.1.trans ih.2.2.1,
          h1.2.2.2.1.trans ih.2.2.2.1, h1.2.2.2.2.1.trans ih.2.2.2.2.1,
          h1.2.2.2.2.2.trans ih.2.2.2.2.2⟩

theorem collideScan_keeps (g : Game) :
    (collideScan g).gameSpeed = g.gameSpeed ∧
    (collideScan g).playerX = g.playerX ∧
    (collideScan g).playerY = g.playerY ∧
    (collideScan g).isRolling = g.isRolling ∧
    (collideScan g).isJumping = g.isJumping := by
  unfold collideScan
  have h := collideList_keeps g g.obstacles
  exact ⟨h.1, h.2.1, h.2.2.1, h.2.2.2.1, h.2.2.2.2.1⟩

theorem spawnObstacleRow_keeps (g : Game) (r : RowRand) (z : ℚ) :
    (spawnObstacleRow g r z).gameSpeed = g.gameSpeed ∧
    (spawnObstacleRow g r z).isJumping = g.isJumping ∧
    (spawnObstacleRow g r z).isRolling = g.isRolling ∧
    (spawnObstacleRow g r z).gstate = g.gstate := by
  exact ⟨rfl, rfl, rfl, rfl⟩

theorem update_gameSpeed (g : Game) (r : RowRand) :
    (update g r).gameSpeed = min maxSpeed (g.gameSpeed + speedIncrement) := by
  simp only [update]
  split_ifs <;>
    simp only [(spawnObstacleRow_keeps _ _ _).1, (collideScan_keeps _).1,
      physicsStep_gameSpeed, updateAI_gameSpeed]

/-- A tick randomness whose draws spawn nothing (all draws `0.9`). -/
def rQuiet0 : RowRand := ⟨0.9, ⟨0.9, 0.9⟩, ⟨0.9, 0.9⟩, ⟨0.9, 0.9⟩⟩

/-! ## C10: speed bounds and monotonicity -/

/-- C10: on every tick taken in the PLAYING state the new speed is
`min maxSpeed (speed + speedIncrement)`; hence while
`startSpeed ≤ speed ≤ maxSpeed` holds before the tick it holds after it,
and the speed never decreases (it increases by `speedIncrement` until it
saturates at `maxSpeed`). -/
theorem gameSpeed_bounds (g : Game) (r : RowRand)
    (hp : g.gstate = GState.PLAYING)
    (h1 : startSpeed ≤ g.gameSpeed) (h2 : g.gameSpeed ≤ maxSpeed) :
    (tick g r).gameSpeed = min maxSpeed (g.gameSpeed + speedIncrement) ∧
    startSpeed ≤ (tick g r).gameSpeed ∧
    (tick g r).gameSpeed ≤ maxSpeed ∧
    g.gameSpeed ≤ (tick g r).gameSpeed := by
  have ht : tick g r = update g r := by simp [tick, hp]
  have hs : (tick g r).gameSpeed = min maxSpeed (g.gameSpeed + speedIncrement) := by
    rw [ht]; exact update_gameSpeed g r
  have hinc : (0 : ℚ) ≤ speedIncrement := by norm_num [speedIncrement]
  have hsm : startSpeed ≤ maxSpeed := by norm_num [startSpeed, maxSpeed]
  refine ⟨hs, ?_, ?_, ?_⟩
  · rw [hs]; exact le_min hsm (le_trans h1 (by linarith))
  · rw [hs]; exact min_le_left _ _
  · rw [hs]; exact le_min h2 (by linarith)

/-- Witness for `gameSpeed_bounds` at a concrete playing state. -/
theorem gameSpeed_bounds_witness :
    (tick { initGame with gstate := GState.PLAYING, gameSpeed := 0.6 } rQuiet0).gameSpeed =
      min maxSpeed (0.6 + speedIncrement) := by
  have h := gameSpeed_bounds { initGame with gstate := GState.PLAYING, gameSpeed := 0.6 }
    rQuiet0 rfl (by norm_num [startSpeed, initGame]) (by norm_num [maxSpeed, initGame])
  exact h.1


/-! ## C4: jump/roll command no-op rules -/

/-- A state that is rolling and not jumping. -/
def gRolling : Game := { initGame with isRolling := true, rollTimer := 17 }

/-- C4 counterexample: the claim says the jump command is a no-op while
already Rolling, but `jump()` only checks `isJumping`; from a rolling
state it cancels the roll and starts a jump, changing the state. -/
theorem jump_changes_rolling_state :
    gRolling.isRolling = true ∧ gRolling.isJumping = false ∧ jumpCmd gRolling ≠ gRolling := by
  refine ⟨rfl, rfl, fun h => ?_⟩
  have h2 := congrArg Game.isRolling h
  simp [jumpCmd, gRolling, initGame] at h2

/-- C4 (amended): the roll command is a no-op while already Jumping or
already Rolling; the jump command is a no-op only while already Jumping —
issued while Rolling (and not Jumping) it cancels the roll, sets the jump
flag and the upward impulse. -/
theorem jump_roll_noop_rules (g : Game) :
    (g.isJumping = true → jumpCmd g = g) ∧
    (g.isJumping = true ∨ g.isRolling = true → rollCmd g = g) ∧
    (g.isJumping = false → g.isRolling = true →
      jumpCmd g = { g with isJumping := true, isRolling := false,
                           playerVelocityY := jumpForce }) := by
  refine ⟨fun h => ?_, fun h => ?_, fun h1 h2 => ?_⟩
  · simp [jumpCmd, h]
  · simp [rollCmd, h]
  · simp [jumpCmd, h1]

/-- Witness for `jump_roll_noop_rules`: at the concrete rolling state the
roll command is a no-op and the jump command cancels the roll. -/
theorem jump_roll_noop_rules_witness :
    rollCmd gRolling = gRolling ∧
    jumpCmd gRolling = { gRolling with isJumping := true, isRolling := false,
                                       playerVelocityY := jumpForce } := by
  exact ⟨(jump_roll_noop_rules gRolling).2.1 (Or.inr rfl),
    (jump_roll_noop_rules gRolling).2.2 rfl rfl⟩

/-! ## C1: kind-specific survival rule at hazard contact -/

/-- C1: at any hazard contact (longitudinal distance of the advanced
obstacle within the `(-1, 1)` window, lateral distance from the player's
current x within the `1.2` hitbox radius), survival is decided by the
kind-specific rule: a JUMP barrier is survived iff `playerY > 1.2`, a
DUCK barrier iff `isRolling`, a SOLID contact never; any unsurvived
contact performs the terminal `gameOver` transition.  The resolution
reads no autopilot information: it commutes with flipping
`autoPilotEnabled`, so manual and autopilot play are judged identically. -/
theorem contact_survival_rule (g : Game) (o : Obstacle)
    (ha : o.active = true)
    (h1 : -1 < o.z + g.gameSpeed) (h2 : o.z + g.gameSpeed < 1)
    (h3 : |o.x - g.playerX| < 1.2) :
    (o.ctype = CollisionType.JUMP →
      collideOne g o =
        (if g.playerY > 1.2 then g else gameOverStep g,
         some { o with z := o.z + g.gameSpeed })) ∧
    (o.ctype = CollisionType.DUCK →
      collideOne g o =
        (if g.isRolling = true then g else gameOverStep g,
         some { o with z := o.z + g.gameSpeed })) ∧
    (o.ctype = CollisionType.SOLID →
      collideOne g o = (gameOverStep g, some { o with z := o.z + g.gameSpeed })) ∧
    (gameOverStep g).gstate = GState.GAME_OVER ∧
    (∀ b : Bool,
      collideOne { g with autoPilotEnabled := b } o =
        ({ (collideOne g o).1 with autoPilotEnabled := b }, (collideOne g o).2)) := by
  have hc : o.active = true ∧ -1 < o.z + g.gameSpeed ∧ o.z + g.gameSpeed < 1 ∧
      |o.x - g.playerX| < 1.2 := ⟨ha, h1, h2, h3⟩
  have hz15 : ¬(o.z + g.gameSpeed > 15) := by linarith
  refine ⟨fun ht => ?_, fun ht => ?_, fun ht => ?_, rfl, fun b => ?_⟩
  · simp only [collideOne, if_pos hc, ht]
    by_cases hy : g.playerY > 1.2
    · simp [hy, hz15]
    · simp [hy, hz15]
  · simp only [collideOne, if_pos hc, ht]
    by_cases hr : g.isRolling = true
    · simp [hr, hz15]
    · simp [hr, hz15]
  · simp only [collideOne, if_pos hc, ht]
    simp [hz15]
  · simp only [collideOne, gameOverStep]
    split_ifs <;> simp_all

/-- Concrete contact state: airborne player (`y = 2`) meeting a JUMP
barrier whose advanced position lies in the contact window. -/
def gAirborne : Game :=
  { initGame with
      gstate := GState.PLAYING
      gameSpeed := 0.6
      playerY := 2
      isJumping := true }

/-- The JUMP barrier met by `gAirborne`. -/
def oJumpBarrier : Obstacle := ⟨0, -1.3, 0, CollisionType.JUMP, true⟩

/-- Witness for `contact_survival_rule`: the concrete JUMP contact. -/
theorem contact_survival_rule_witness :
    collideOne gAirborne oJumpBarrier =
      (if gAirborne.playerY > 1.2 then gAirborne else gameOverStep gAirborne,
       some { oJumpBarrier with z := oJumpBarrier.z + gAirborne.gameSpeed }) := by
  exact (contact_survival_rule gAirborne oJumpBarrier rfl
    (by norm_num [gAirborne, oJumpBarrier, initGame])
    (by norm_num [gAirborne, oJumpBarrier, initGame])
    (by norm_num [gAirborne, oJumpBarrier, initGame])).1 rfl

/-! ## C5: jump and roll are mutually exclusive on all reachable states -/

/-- The mutual-exclusion invariant on the player's motion modes. -/
def motionExclusive (g : Game) : Prop :=
  ¬(g.isJumping = true ∧ g.isRolling = true)

theorem motionExclusive_jumpCmd (g : Game) (h : motionExclusive g) :
    motionExclusive (jumpCmd g) := by
  unfold motionExclusive jumpCmd at *
  split <;> simp_all

theorem motionExclusive_rollCmd (g : Game) (h : motionExclusive g) :
    motionExclusive (rollCmd g) := by
  unfold motionExclusive rollCmd at *
  split <;> simp_all

theorem motionExclusive_updateAI (g : Game) (h : motionExclusive g) :
    motionExclusive (updateAI g) := by
  have hg0 : ∀ g0 : Game, g0.isJumping = g.isJumping → g0.isRolling = g.isRolling →
      motionExclusive g0 := by
    intro g0 h1 h2
    unfold motionExclusive at *
    rw [h1, h2]; exact h
  simp only [updateAI]
  split_ifs <;>
    first
    | exact motionExclusive_jumpCmd _ (hg0 _ rfl rfl)
    | exact motionExclusive_rollCmd _ (hg0 _ rfl rfl)
    | exact hg0 _ rfl rfl

theorem motionExclusive_physicsStep (g : Game) (h : motionExclusive g) :
    motionExclusive (physicsStep g) := by
  unfold motionExclusive at *
  simp only [physicsStep]
  split_ifs <;> simp_all

theorem motionExclusive_collideScan (g : Game) (h : motionExclusive g) :
    motionExclusive (collideScan g) := by
  have h1 := collideList_keeps g g.obstacles
  unfold motionExclusive at *
  unfold collideScan
  simp only [h1.2.2.2.1, h1.2.2.2.2.1]
  exact h

theorem motionExclusive_spawnObstacleRow (g : Game) (r : RowRand) (z : ℚ)
    (h : motionExclusive g) : motionExclusive (spawnObstacleRow g r z) := h

theorem motionExclusive_update (g : Game) (r : RowRand) (h : motionExclusive g) :
    motionExclusive (update g r) := by
  have hg1 : ∀ g1 : Game, g1.isJumping = g.isJumping → g1.isRolling = g.isRolling →
      motionExclusive g1 := by
    intro g1 h1 h2
    unfold motionExclusive at *
    rw [h1, h2]; exact h
  simp only [update]
  split
  · split
    · exact motionExclusive_spawnObstacleRow _ _ _ (motionExclusive_collideScan _
        (motionExclusive_physicsStep _ (motionExclusive_updateAI _ (hg1 _ rfl rfl))))
    · exact motionExclusive_collideScan _
        (motionExclusive_physicsStep _ (motionExclusive_updateAI _ (hg1 _ rfl rfl)))
  · split
    · exact motionExclusive_spawnObstacleRow _ _ _ (motionExclusive_collideScan _
        (motionExclusive_physicsStep _ (hg1 _ rfl rfl)))
    · exact motionExclusive_collideScan _
        (motionExclusive_physicsStep _ (hg1 _ rfl rfl))

theorem motionExclusive_applyEv (g : Game) (e : Ev) (h : motionExclusive g) :
    motionExclusive (applyEv g e) := by
  cases e with
  | mvLeft =>
      unfold applyEv moveLeftCmd
      by_cases hc : g.currentLane > -1 <;> simpa [motionExclusive, hc] using h
  | mvRight =>
      unfold applyEv moveRightCmd
      by_cases hc : g.currentLane < 1 <;> simpa [motionExclusive, hc] using h
  | doJump => exact motionExclusive_jumpCmd g h
  | doRoll => exact motionExclusive_rollCmd g h
  | setAP v => exact h
  | doStart =>
      unfold applyEv startCmd
      by_cases hc : g.gstate = GState.PLAYING
      · simpa [motionExclusive, hc] using h
      · simp [motionExclusive, hc]
  | doTick r =>
      unfold applyEv tick
      by_cases hc : g.gstate = GState.PLAYING
      · simp only [if_pos hc]; exact motionExclusive_update g r h
      · simp only [if_neg hc]; exact h

/-- C5: along every event sequence (manual commands, autopilot toggles,
starts and ticks) from the constructor state, `isJumping` and `isRolling`
are never both true: their conjunction is false at every reachable
state. -/
theorem jump_roll_never_both (es : List Ev) :
    ((runEvents es).isJumping && (runEvents es).isRolling) = false := by
  have key : ∀ (l : List Ev) (g : Game), motionExclusive g →
      motionExclusive (l.foldl applyEv g) := by
    intro l
    induction l with
    | nil => intro g hg; exact hg
    | cons e t ih =>
        intro g hg
        exact ih (applyEv g e) (motionExclusive_applyEv g e hg)
  have h0 : motionExclusive initGame := by
    unfold motionExclusive initGame; simp
  have h := key es initGame h0
  unfold motionExclusive runEvents at *
  cases hj : (es.foldl applyEv initGame).isJumping <;>
    cases hr : (es.foldl applyEv initGame).isRolling <;> simp_all

/-! ## C8: safe lane choice -/

theorem getD_floor_characterisation (L : List Int) (hnd : L.Nodup) (d : Int) (r : ℚ)
    (h0 : 0 ≤ r) (h1 : r < 1) (hL : 0 < L.length) (i : ℕ) (hi : i < L.length) :
    L.getD (Int.toNat ⌊r * (L.length : ℚ)⌋) d = L.getD i d ↔
      (i : ℚ) ≤ r * (L.length : ℚ) ∧ r * (L.length : ℚ) < i + 1 := by
  have hlen : (0 : ℚ) < (L.length : ℚ) := by exact_mod_cast hL
  have hj0 : 0 ≤ ⌊r * (L.length : ℚ)⌋ :=
    Int.floor_nonneg.mpr (mul_nonneg h0 (le_of_lt hlen))
  have hjlt : ⌊r * (L.length : ℚ)⌋ < (L.length : ℤ) := by
    apply Int.floor_lt.mpr
    calc r * (L.length : ℚ) < 1 * (L.length : ℚ) := mul_lt_mul_of_pos_right h1 hlen
    _ = ((L.length : ℤ) : ℚ) := by push_cast; ring
  have hjn : Int.toNat ⌊r * (L.length : ℚ)⌋ < L.length := by omega
  rw [List.getD_eq_getElem L d hjn, List.getD_eq_getElem L d hi, hnd.getElem_inj_iff]
  constructor
  · intro he
    have hfl : ⌊r * (L.length : ℚ)⌋ = (i : ℤ) := by omega
    have h2 := Int.floor_eq_iff.mp hfl
    exact ⟨by exact_mod_cast h2.1, by exact_mod_cast h2.2⟩
  · intro hiv
    have hfl : ⌊r * (L.length : ℚ)⌋ = (i : ℤ) := by
      apply Int.floor_eq_iff.mpr
      exact ⟨by exact_mod_cast hiv.1, by exact_mod_cast hiv.2⟩
    omega

/-- C8: the guaranteed-safe lane of a spawned row is drawn from
`{prev - 1, prev, prev + 1} ∩ {-1, 0, 1}`; the candidate list has no
duplicates and the draw maps `r` to the `i`-th candidate exactly on the
interval `[i/len, (i+1)/len)` (uniform choice); consequently the safe
lanes of consecutive rows differ by at most one, and `spawnObstacleRow`
records the chosen lane as the next row's previous-safe-lane. -/
theorem safe_lane_choice_rule (prev : Int) (r : ℚ)
    (hp1 : -1 ≤ prev) (hp2 : prev ≤ 1) (hr0 : 0 ≤ r) (hr1 : r < 1) :
    (∀ l : Int, l ∈ possibleLanes prev ↔
        ((l = prev - 1 ∨ l = prev ∨ l = prev + 1) ∧ -1 ≤ l ∧ l ≤ 1)) ∧
    chooseSafeLane prev r ∈ possibleLanes prev ∧
    (chooseSafeLane prev r - prev ≤ 1 ∧ prev - chooseSafeLane prev r ≤ 1) ∧
    (∀ i : ℕ, i < (possibleLanes prev).length →
        (chooseSafeLane prev r = (possibleLanes prev).getD i prev ↔
          (i : ℚ) ≤ r * ((possibleLanes prev).length : ℚ) ∧
            r * ((possibleLanes prev).length : ℚ) < i + 1)) ∧
    (∀ (g : Game) (rr : RowRand) (z : ℚ),
        (spawnObstacleRow g rr z).lastSafeLane = chooseSafeLane g.lastSafeLane rr.laneR) := by
  have hnd : (possibleLanes prev).Nodup := by
    interval_cases prev <;> decide
  have hlen : 0 < (possibleLanes prev).length := by
    interval_cases prev <;> decide
  have hlenQ : (0 : ℚ) < ((possibleLanes prev).length : ℚ) := by exact_mod_cast hlen
  have hj0 : 0 ≤ ⌊r * ((possibleLanes prev).length : ℚ)⌋ :=
    Int.floor_nonneg.mpr (mul_nonneg hr0 (le_of_lt hlenQ))
  have hjlt : ⌊r * ((possibleLanes prev).length : ℚ)⌋ < ((possibleLanes prev).length : ℤ) := by
    apply Int.floor_lt.mpr
    calc r * ((possibleLanes prev).length : ℚ)
        < 1 * ((possibleLanes prev).length : ℚ) := mul_lt_mul_of_pos_right hr1 hlenQ
    _ = (((possibleLanes prev).length : ℤ) : ℚ) := by push_cast; ring
  have hjn : Int.toNat ⌊r * ((possibleLanes prev).length : ℚ)⌋ < (possibleLanes prev).length := by
    omega
  have hmemiff : ∀ l : Int, l ∈ possibleLanes prev ↔
      ((l = prev - 1 ∨ l = prev ∨ l = prev + 1) ∧ -1 ≤ l ∧ l ≤ 1) := by
    intro l
    interval_cases prev <;> simp [possibleLanes] <;> omega
  have hmem : chooseSafeLane prev r ∈ possibleLanes prev := by
    unfold chooseSafeLane
    rw [List.getD_eq_getElem _ _ hjn]
    exact List.getElem_mem _
  refine ⟨hmemiff, hmem, ?_, ?_, fun g rr z => rfl⟩
  · have := (hmemiff _).mp hmem
    omega
  · intro i hi
    exact getD_floor_characterisation (possibleLanes prev) hnd prev r hr0 hr1 hlen i hi

/-- Witness for `safe_lane_choice_rule` at `prev = 0`, `r = 0.5`: the draw
lands on the second candidate (lane `-1`). -/
theorem safe_lane_choice_rule_witness :
    chooseSafeLane 0 0.5 ∈ possibleLanes 0 ∧
    (chooseSafeLane 0 0.5 - 0 ≤ 1 ∧ (0 : Int) - chooseSafeLane 0 0.5 ≤ 1) := by
  have h := safe_lane_choice_rule 0 0.5 (by norm_num) (by norm_num) (by norm_num) (by norm_num)
  exact ⟨h.2.1, h.2.2.1⟩

/-! ## C7: spawn gate -/

/-- The spec-side reading of the spawn gate, for comparison with the
code's `shouldSpawn`: the trailing-most ACTIVE obstacle has fallen back
beyond the minimum gap threshold.  Since the trailing-most obstacle has
the minimal `z`, this says every active obstacle is beyond the
threshold (vacuously true with no active obstacle, matching the
"zero active hazards = fully safe" convention of the spec). -/
def specTrailingActiveGate (l : List Obstacle) (speed : ℚ) : Prop :=
  ∀ o ∈ l, o.active = true → o.z > spawnZ + (50 + speed * 30)

theorem mem_of_getLast?_some {l : List Obstacle} {o0 : Obstacle}
    (h : l.getLast? = some o0) : o0 ∈ l := by
  rcases List.mem_getLast?_eq_getLast (Option.mem_def.mpr h) with ⟨hne, he⟩
  rw [he]; exact List.getLast_mem hne

theorem getLast_z_min (l : List Obstacle)
    (hp : l.Pairwise (fun a b => b.z ≤ a.z)) {o0 : Obstacle}
    (hlast : l.getLast? = some o0) : ∀ o ∈ l, o0.z ≤ o.z := by
  induction l with
  | nil => simp at hlast
  | cons a t ih =>
      cases t with
      | nil =>
          simp only [List.getLast?_singleton, Option.some.injEq] at hlast
          intro o ho
          simp only [List.mem_singleton] at ho
          rw [ho, ← hlast]
      | cons b t2 =>
          rw [List.getLast?_cons_cons] at hlast
          have hp2 := List.pairwise_cons.mp hp
          intro o ho
          rcases List.mem_cons.mp ho with hh | hh
          · have hmem : o0 ∈ b :: t2 := mem_of_getLast?_some hlast
            rw [hh]
            exact hp2.1 o0 hmem
          · exact ih hp2.2 hlast o hh

/-- C7: the spawn gate.  Under the run invariants that the obstacle list
is ordered by nonincreasing `z` (spawn order) and that an inactive
(collected) obstacle is past `z = -1`, a row is emitted in a tick iff
the trailing-most active obstacle has fallen back beyond the
speed-dependent minimum gap `50 + speed * 30` from the spawn line; the
gate depends on nothing but the obstacle list and the current speed (no
timer), every obstacle is then more than the minimum gap ahead of the
spawn line `spawnZ = -180`, and every obstacle a row adds sits exactly
on the spawn line. -/
theorem spawn_gate_rule (l : List Obstacle) (speed : ℚ)
    (hp : l.Pairwise (fun a b => b.z ≤ a.z))
    (hinact : ∀ o ∈ l, o.active = false → o.z > -1)
    (hsp : speed ≤ maxSpeed) :
    (shouldSpawn l speed = true ↔ specTrailingActiveGate l speed) ∧
    (shouldSpawn l speed = true → ∀ o ∈ l, o.z - spawnZ > 50 + speed * 30) ∧
    (∀ (g : Game) (r : RowRand) (z : ℚ), ∀ o ∈ (spawnObstacleRow g r z).obstacles,
        o ∈ g.obstacles ∨ o.z = z) := by
  have hthr : spawnZ + (50 + speed * 30) < -1 := by
    have : maxSpeed = 2.8 := rfl
    rw [spawnZ]
    nlinarith [hsp]
  have hgap : shouldSpawn l speed = true → ∀ o ∈ l, o.z > spawnZ + (50 + speed * 30) := by
    intro hs o ho
    cases hl : l.getLast? with
    | none => rw [List.getLast?_eq_none_iff] at hl; subst hl; simp at ho
    | some o0 =>
        have hmin := getLast_z_min l hp hl o ho
        unfold shouldSpawn at hs
        rw [hl] at hs
        simp only [decide_eq_true_eq] at hs
        linarith
  refine ⟨⟨fun hs o ho _ => hgap hs o ho, fun hspec => ?_⟩,
    fun hs o ho => by have := hgap hs o ho; linarith, ?_⟩
  · unfold shouldSpawn
    cases hl : l.getLast? with
    | none => rfl
    | some o0 =>
        simp only [decide_eq_true_eq]
        have hmem : o0 ∈ l := mem_of_getLast?_some hl
        cases ha : o0.active with
        | true => exact hspec o0 hmem ha
        | false =>
            have := hinact o0 hmem ha
            linarith
  · intro g r z o ho
    unfold spawnObstacleRow at ho
    simp only [List.mem_append] at ho
    rcases ho with ((hh | hh) | hh) | hh
    · exact Or.inl hh
    all_goals
      refine Or.inr ?_
      unfold rowLane at hh
      split_ifs at hh <;> simp_all

/-- Obstacle list for the spawn-gate witness: two solid hazards in spawn
order. -/
def lGate : List Obstacle :=
  [⟨0, 100, 0, CollisionType.SOLID, true⟩, ⟨0, -100, 0, CollisionType.SOLID, true⟩]

/-- Witness for `spawn_gate_rule` on a concrete ordered list at speed
`0.6`. -/
theorem spawn_gate_rule_witness :
    shouldSpawn lGate 0.6 = true ↔ specTrailingActiveGate lGate 0.6 := by
  exact (spawn_gate_rule lGate 0.6
    (by refine List.Pairwise.cons ?_ (List.pairwise_singleton _ _)
        intro o ho
        simp only [lGate, List.mem_singleton] at ho
        subst ho
        norm_num [lGate])
    (by simp [lGate])
    (by norm_num [maxSpeed])).1

/-! ## C2: navigator lane step bound -/

set_option maxHeartbeats 1000000 in
theorem analyzeStep_lane (jmp rol : Bool) (st : LaneAnalysis) (o : Obstacle) :
    (analyzeStep jmp rol st o).lane = st.lane := by
  cases hct : o.ctype <;> simp only [analyzeStep, hct] <;> split_ifs <;> rfl

theorem foldl_analyzeStep_lane (jmp rol : Bool) (l : List Obstacle) (st : LaneAnalysis) :
    (l.foldl (analyzeStep jmp rol) st).lane = st.lane := by
  induction l generalizing st with
  | nil => rfl
  | cons o t ih => rw [List.foldl_cons, ih, analyzeStep_lane]

theorem analyzeLane_lane (obstacles : List Obstacle) (jmp rol : Bool)
    (laneIdx : Int) (range : ℚ) :
    (analyzeLane obstacles jmp rol laneIdx range).lane = laneIdx := by
  simp only [analyzeLane]
  rw [foldl_analyzeStep_lane]

theorem bestAnalysis_mem (analysis : List LaneAnalysis) (h : analysis ≠ []) :
    bestAnalysis analysis ∈ analysis := by
  cases analysis with
  | nil => exact absurd rfl h
  | cons a t =>
      simp only [bestAnalysis]
      have key : ∀ (t2 : List LaneAnalysis) (b : LaneAnalysis),
          t2.foldl (fun b x => if b.score < x.score then x else b) b ∈ b :: t2 := by
        intro t2
        induction t2 with
        | nil => intro b; exact List.mem_singleton.mpr rfl
        | cons x t3 ih =>
            intro b
            rw [List.foldl_cons]
            rcases List.mem_cons.mp (ih (if b.score < x.score then x else b)) with hh | hh
            · rw [hh]
              split_ifs
              · exact List.mem_cons_of_mem _ (List.mem_cons_self _ _)
              · exact List.mem_cons_self _ _
            · exact List.mem_cons_of_mem _ (List.mem_cons_of_mem _ hh)
      rcases List.mem_cons.mp (key t a) with hh | hh
      · rw [hh]; exact List.mem_cons_self _ _
      · exact List.mem_cons_of_mem _ hh

theorem laneDecision_bound (current : Int) (speed : ℚ) (cd : Int)
    (analysis : List LaneAnalysis)
    (hm : ∀ a ∈ analysis, -1 ≤ a.lane ∧ a.lane ≤ 1)
    (hne : analysis ≠ [])
    (hc1 : -1 ≤ current) (hc2 : current ≤ 1) :
    (-2 ≤ (laneDecision current speed cd analysis).1 - current ∧
      (laneDecision current speed cd analysis).1 - current ≤ 2) ∧
    ((findLane analysis current).firstSolidDist < 100 + speed * 20 →
      -1 ≤ (laneDecision current speed cd analysis).1 - current ∧
      (laneDecision current speed cd analysis).1 - current ≤ 1) := by
  have hb := hm _ (bestAnalysis_mem analysis hne)
  simp only [laneDecision]
  split_ifs with hEm h1 h2 h3 h4 h5 <;>
    first
    | (refine ⟨by omega, fun _ => by omega⟩)
    | (refine ⟨by omega, fun hp => absurd hp (by simpa using hEm)⟩)

theorem updateAI_currentLane (g : Game) :
    (updateAI g).currentLane =
      (laneDecision g.currentLane g.gameSpeed
        (if g.aiLaneChangeCooldown > 0 then g.aiLaneChangeCooldown - 1
         else g.aiLaneChangeCooldown)
        (analysisOf g)).1 := by
  by_cases hcd : g.aiLaneChangeCooldown > 0
  · simp only [updateAI, if_pos hcd]
    split_ifs <;> (try rw [(jumpCmd_keeps _).2.1]) <;>
      (try rw [(rollCmd_keeps _).2.1]) <;> rfl
  · simp only [updateAI, if_neg hcd]
    split_ifs <;> (try rw [(jumpCmd_keeps _).2.1]) <;>
      (try rw [(rollCmd_keeps _).2.1]) <;> rfl

/-- C2 (amended): per autopilot tick the emergency branch changes the
current lane by at most one step, but the optimization branch assigns the
best-scoring lane directly, which can be two lanes away; in all cases the
lane moves by at most two steps. -/
theorem navigator_lane_change_bound (g : Game)
    (h1 : -1 ≤ g.currentLane) (h2 : g.currentLane ≤ 1) :
    (-2 ≤ (updateAI g).currentLane - g.currentLane ∧
      (updateAI g).currentLane - g.currentLane ≤ 2) ∧
    (aiEmergency g = true →
      -1 ≤ (updateAI g).currentLane - g.currentLane ∧
      (updateAI g).currentLane - g.currentLane ≤ 1) := by
  have hm : ∀ a ∈ analysisOf g, -1 ≤ a.lane ∧ a.lane ≤ 1 := by
    intro a ha
    simp only [analysisOf, List.mem_cons, List.not_mem_nil, or_false] at ha
    rcases ha with hh | hh | hh <;> rw [hh, analyzeLane_lane] <;> omega
  have hne : analysisOf g ≠ [] := by simp [analysisOf]
  have hbound := laneDecision_bound g.currentLane g.gameSpeed
    (if g.aiLaneChangeCooldown > 0 then g.aiLaneChangeCooldown - 1
     else g.aiLaneChangeCooldown)
    (analysisOf g) hm hne h1 h2
  rw [updateAI_currentLane]
  refine ⟨hbound.1, fun hem => ?_⟩
  apply hbound.2
  simpa [aiEmergency] using hem

/-- Autopilot state in lane `-1` whose best-scoring lane is lane `1`
(two coins there), with no emergency: the optimization branch applies. -/
def gTwoCoins : Game :=
  { initGame with
      gstate := GState.PLAYING
      gameSpeed := 0.6
      currentLane := -1
      playerX := -4
      autoPilotEnabled := true
      obstacles := [⟨4, -50, 1, CollisionType.COIN, true⟩,
                    ⟨4, -60, 1, CollisionType.COIN, true⟩] }

/-- C2 counterexample: in the optimization branch the navigator assigns
the best lane directly, moving from lane `-1` to lane `1` in one tick —
a two-lane step, contradicting the claimed single-step bound. -/
theorem navigator_two_lane_jump :
    gTwoCoins.currentLane = -1 ∧
    (updateAI gTwoCoins).currentLane - gTwoCoins.currentLane = 2 := by
  refine ⟨rfl, ?_⟩
  norm_num [updateAI, analysisOf, analyzeLane, analyzeStep, sortZDesc, insertZDesc,
    laneFilter, aiRange, laneDecision, findLane, bestAnalysis, dfltAnalysis, gTwoCoins,
    initGame, jumpCmd, rollCmd]

/-- Witness for `navigator_lane_change_bound` at the concrete state. -/
theorem navigator_lane_change_bound_witness :
    -2 ≤ (updateAI gTwoCoins).currentLane - gTwoCoins.currentLane ∧
    (updateAI gTwoCoins).currentLane - gTwoCoins.currentLane ≤ 2 := by
  exact (navigator_lane_change_bound gTwoCoins (by norm_num [gTwoCoins, initGame])
    (by norm_num [gTwoCoins, initGame])).1

/-! ## C6: blocked-beside lanes and the sentinel score -/

/-- A "blocked beside" obstacle: non-coin within the `(-4, 5)` window. -/
def blocksBeside (o : Obstacle) : Prop :=
  o.ctype ≠ CollisionType.COIN ∧ -4 < o.z ∧ o.z < 5

theorem mem_insertZDesc (a o : Obstacle) (l : List Obstacle) :
    a ∈ insertZDesc o l ↔ a = o ∨ a ∈ l := by
  induction l with
  | nil => simp [insertZDesc]
  | cons b t ih =>
      simp only [insertZDesc]
      split_ifs <;> simp only [List.mem_cons, ih] <;> tauto

theorem mem_sortZDesc (a : Obstacle) (l : List Obstacle) :
    a ∈ sortZDesc l ↔ a ∈ l := by
  induction l with
  | nil => simp [sortZDesc]
  | cons o t ih =>
      simp only [sortZDesc, mem_insertZDesc, List.mem_cons, ih]

theorem countP_insertZDesc (p : Obstacle → Bool) (o : Obstacle) (l : List Obstacle) :
    (insertZDesc o l).countP p = l.countP p + (if p o then 1 else 0) := by
  induction l with
  | nil => simp [insertZDesc, List.countP_cons]
  | cons b t ih =>
      simp only [insertZDesc]
      split_ifs with h <;> simp_all [List.countP_cons] <;> omega

theorem countP_sortZDesc (p : Obstacle → Bool) (l : List Obstacle) :
    (sortZDesc l).countP p = l.countP p := by
  induction l with
  | nil => rfl
  | cons o t ih =>
      simp only [sortZDesc, countP_insertZDesc, ih, List.countP_cons]

set_option maxHeartbeats 1000000 in
theorem analyzeStep_blocked_mono (jmp rol : Bool) (st : LaneAnalysis) (o : Obstacle)
    (h : st.isBlockedSide = true) :
    (analyzeStep jmp rol st o).isBlockedSide = true := by
  cases hct : o.ctype <;> simp only [analyzeStep, hct] <;> split_ifs <;> simp_all

set_option maxHeartbeats 1000000 in
theorem analyzeStep_blocker (jmp rol : Bool) (st : LaneAnalysis) (o : Obstacle)
    (hb : blocksBeside o) :
    (analyzeStep jmp rol st o).isBlockedSide = true ∧
    (analyzeStep jmp rol st o).score ≤ -999999 := by
  obtain ⟨hne, hz1, hz2⟩ := hb
  have hd : (0 : ℚ) ≤ 100000 / (|o.z| + 1) :=
    div_nonneg (by norm_num) (by positivity)
  cases hct : o.ctype <;> simp only [analyzeStep, hct] <;> split_ifs <;>
    simp_all <;>
    first
    | linarith
    | (left; linarith)
    | (right; norm_num)
    | norm_num

set_option maxHeartbeats 1000000 in
theorem analyzeStep_score_le (jmp rol : Bool) (st : LaneAnalysis) (o : Obstacle) :
    (analyzeStep jmp rol st o).score ≤
      max st.score (-999999) + (if o.ctype = CollisionType.COIN then (50 : ℚ) else 0) := by
  have hd : (0 : ℚ) ≤ 100000 / (|o.z| + 1) :=
    div_nonneg (by norm_num) (by positivity)
  have hmax1 : st.score ≤ max st.score (-999999) := le_max_left _ _
  have hmax2 : (-999999 : ℚ) ≤ max st.score (-999999) := le_max_right _ _
  cases hct : o.ctype <;> simp only [analyzeStep, hct] <;> split_ifs <;>
    simp_all <;>
    first
    | linarith
    | (left; linarith)
    | (right; norm_num)
    | norm_num

theorem foldl_analyzeStep_blocked_mono (jmp rol : Bool) (l : List Obstacle)
    (st : LaneAnalysis) (h : st.isBlockedSide = true) :
    (l.foldl (analyzeStep jmp rol) st).isBlockedSide = true := by
  induction l generalizing st with
  | nil => exact h
  | cons o t ih =>
      rw [List.foldl_cons]
      exact ih _ (analyzeStep_blocked_mono jmp rol st o h)

theorem foldl_analyzeStep_score_le (jmp rol : Bool) (l : List Obstacle)
    (st : LaneAnalysis) :
    (l.foldl (analyzeStep jmp rol) st).score ≤
      max st.score (-999999) +
        50 * (l.countP (fun o => o.ctype == CollisionType.COIN) : ℚ) := by
  induction l generalizing st with
  | nil =>
      simp only [List.foldl_nil, List.countP_nil, Nat.cast_zero, mul_zero, add_zero]
      exact le_max_left _ _
  | cons o t ih =>
      rw [List.foldl_cons]
      have h1 := analyzeStep_score_le jmp rol st o
      have h2 := ih (analyzeStep jmp rol st o)
      have h3 : max (analyzeStep jmp rol st o).score (-999999 : ℚ) ≤
          max st.score (-999999) +
            (if o.ctype = CollisionType.COIN then (50 : ℚ) else 0) := by
        apply max_le
        · exact h1
        · have := le_max_right st.score (-999999 : ℚ)
          split_ifs <;> linarith
      have h4 : ((o :: t).countP (fun o => o.ctype == CollisionType.COIN) : ℚ) =
          (t.countP (fun o => o.ctype == CollisionType.COIN) : ℚ) +
            (if o.ctype = CollisionType.COIN then (1 : ℚ) else 0) := by
        rw [List.countP_cons]
        by_cases hc : o.ctype = CollisionType.COIN <;> simp [hc]
      rw [h4]
      have h5 : (if o.ctype = CollisionType.COIN then (50 : ℚ) else 0) =
          50 * (if o.ctype = CollisionType.COIN then (1 : ℚ) else 0) := by
        split_ifs <;> norm_num
      linarith [h2, h3]

theorem foldl_analyzeStep_blocked (jmp rol : Bool) (l : List Obstacle)
    (st : LaneAnalysis) (hb : ∃ o ∈ l, blocksBeside o) :
    (l.foldl (analyzeStep jmp rol) st).isBlockedSide = true ∧
    (l.foldl (analyzeStep jmp rol) st).score ≤
      -999999 + 50 * (l.countP (fun o => o.ctype == CollisionType.COIN) : ℚ) := by
  induction l generalizing st with
  | nil =>
      obtain ⟨o, ho, _⟩ := hb
      exact absurd ho (List.not_mem_nil o)
  | cons o t ih =>
      rw [List.foldl_cons]
      have hcount : ((o :: t).countP (fun o => o.ctype == CollisionType.COIN) : ℚ) =
          (t.countP (fun o => o.ctype == CollisionType.COIN) : ℚ) +
            (if o.ctype = CollisionType.COIN then (1 : ℚ) else 0) := by
        rw [List.countP_cons]
        by_cases hc : o.ctype = CollisionType.COIN <;> simp [hc]
      rcases hb with ⟨o2, ho2, hblk⟩
      rcases List.mem_cons.mp ho2 with he | hm
      · subst he
        have hstep := analyzeStep_blocker jmp rol st o2 hblk
        have hub := foldl_analyzeStep_score_le jmp rol t (analyzeStep jmp rol st o2)
        have hmax : max (analyzeStep jmp rol st o2).score (-999999 : ℚ) = -999999 :=
          max_eq_right hstep.2
        refine ⟨foldl_analyzeStep_blocked_mono jmp rol t _ hstep.1, ?_⟩
        rw [hmax] at hub
        rw [hcount]
        have hpos : (0 : ℚ) ≤ (if o2.ctype = CollisionType.COIN then (1 : ℚ) else 0) := by
          split_ifs <;> norm_num
        linarith
      · have hih := ih (analyzeStep jmp rol st o) ⟨o2, hm, hblk⟩
        refine ⟨hih.1, ?_⟩
        rw [hcount]
        have hpos : (0 : ℚ) ≤ (if o.ctype = CollisionType.COIN then (1 : ℚ) else 0) := by
          split_ifs <;> norm_num
        linarith [hih.2]

/-- C6 (amended): an active non-coin hazard inside the `(-4, 5)` window
marks the lane blocked-beside and resets the running score to the
sentinel `-999999` when processed; obstacles processed after it (those
farther ahead) and the center-lane bonus still adjust the returned
score, which is therefore bounded by the sentinel plus `50` per active
coin of the lane in range plus the `10` center bonus, rather than being
exactly the sentinel. -/
theorem blocked_lane_forces_low_score (obstacles : List Obstacle) (jmp rol : Bool)
    (L : Int) (range : ℚ) (hr : 4 ≤ range)
    (hb : ∃ o ∈ obstacles, o.active = true ∧ o.lane = L ∧ blocksBeside o) :
    (analyzeLane obstacles jmp rol L range).isBlockedSide = true ∧
    (analyzeLane obstacles jmp rol L range).score ≤
      -999999 + 50 * ((obstacles.filter (laneFilter L range)).countP
          (fun o => o.ctype == CollisionType.COIN) : ℚ) + 10 := by
  obtain ⟨o, ho, ha, hl, hblk⟩ := hb
  have hfil : o ∈ obstacles.filter (laneFilter L range) := by
    rw [List.mem_filter]
    refine ⟨ho, ?_⟩
    unfold laneFilter
    simp only [ha, hl, Bool.and_eq_true, beq_self_eq_true, decide_eq_true_eq, true_and]
    exact ⟨by linarith [hblk.2.1], by linarith [hblk.2.2]⟩
  have hmem : o ∈ sortZDesc (obstacles.filter (laneFilter L range)) :=
    (mem_sortZDesc _ _).mpr hfil
  have hfold := foldl_analyzeStep_blocked jmp rol
    (sortZDesc (obstacles.filter (laneFilter L range)))
    { lane := L, isDeadly := false, isBlockedSide := false, action := RAction.none,
      score := 5000, distanceToThreat := 9999, threatType := Option.none,
      firstSolidDist := 9999 } ⟨o, hmem, hblk⟩
  rw [countP_sortZDesc] at hfold
  have hbonus : (if L = 0 then (10 : ℚ) else 0) ≤ 10 := by split_ifs <;> norm_num
  simp only [analyzeLane]
  exact ⟨hfold.1, by linarith [hfold.2]⟩

/-- Obstacle list with a blocking solid beside the player and a coin
ahead in the same lane. -/
def obsBlockedCoin : List Obstacle :=
  [⟨0, 0, 0, CollisionType.SOLID, true⟩, ⟨0, -50, 0, CollisionType.COIN, true⟩]

/-- C6 counterexample: the lane is blocked beside (active solid at
`z = 0`), yet the returned score is `-999939`, not the sentinel
`-999999`: the coin ahead (processed after the reset) and the center
bonus still contribute. -/
theorem blocked_lane_score_not_sentinel :
    (∃ o ∈ obsBlockedCoin, o.active = true ∧ o.lane = 0 ∧ o.ctype ≠ CollisionType.COIN ∧
      -4 < o.z ∧ o.z < 5) ∧
    (analyzeLane obsBlockedCoin false false 0 1040).isBlockedSide = true ∧
    (analyzeLane obsBlockedCoin false false 0 1040).score = -999939 ∧
    (analyzeLane obsBlockedCoin false false 0 1040).score ≠ -999999 := by
  have hsc : (analyzeLane obsBlockedCoin false false 0 1040).score = -999939 := by
    norm_num [analyzeLane, analyzeStep, sortZDesc, insertZDesc, laneFilter, obsBlockedCoin]
    try simp
    try norm_num
  have hbl : (analyzeLane obsBlockedCoin false false 0 1040).isBlockedSide = true := by
    norm_num [analyzeLane, analyzeStep, sortZDesc, insertZDesc, laneFilter, obsBlockedCoin]
    try simp
    try norm_num
  refine ⟨⟨⟨0, 0, 0, CollisionType.SOLID, true⟩, ?_, rfl, rfl, by decide, by norm_num,
    by norm_num⟩, hbl, hsc, ?_⟩
  · norm_num [obsBlockedCoin]
  · rw [hsc]; norm_num

/-- Witness for `blocked_lane_forces_low_score` at the concrete blocked
lane. -/
theorem blocked_lane_forces_low_score_witness :
    (analyzeLane obsBlockedCoin false false 0 1040).isBlockedSide = true ∧
    (analyzeLane obsBlockedCoin false false 0 1040).score ≤
      -999999 + 50 * ((obsBlockedCoin.filter (laneFilter 0 1040)).countP
          (fun o => o.ctype == CollisionType.COIN) : ℚ) + 10 := by
  exact blocked_lane_forces_low_score obsBlockedCoin false false 0 1040 (by norm_num)
    ⟨⟨0, 0, 0, CollisionType.SOLID, true⟩, by norm_num [obsBlockedCoin], rfl, rfl,
      by decide, by norm_num, by norm_num⟩

/-! ## C9: game-over notification -/

/-- A contact the player does not survive: the collision window holds for
the advanced obstacle, the obstacle is not a coin, and the kind-specific
survival rule fails. -/
def fatalContact (g : Game) (o : Obstacle) : Prop :=
  o.active = true ∧ -1 < o.z + g.gameSpeed ∧ o.z + g.gameSpeed < 1 ∧
  |o.x - g.playerX| < 1.2 ∧ o.ctype ≠ CollisionType.COIN ∧
  ¬((o.ctype = CollisionType.JUMP ∧ g.playerY > 1.2) ∨
    (o.ctype = CollisionType.DUCK ∧ g.isRolling = true))

instance (g : Game) (o : Obstacle) : Decidable (fatalContact g o) := by
  unfold fatalContact; infer_instance

/-- Number of unsurvived contacts in the current tick's collision scan. -/
def fatalCount (g : Game) : ℕ :=
  g.obstacles.countP (fun o => decide (fatalContact g o))

set_option maxHeartbeats 1000000 in
theorem collideOne_payloads (g : Game) (o : Obstacle) :
    (collideOne g o).1.gameOverPayloads.length =
      g.gameOverPayloads.length + (if fatalContact g o then 1 else 0) := by
  by_cases hf : fatalContact g o
  · obtain ⟨ha, h1, h2, h3, hnc, hns⟩ := hf
    have hf2 : fatalContact g o := ⟨ha, h1, h2, h3, hnc, hns⟩
    have hcc : o.active = true ∧ -1 < o.z + g.gameSpeed ∧ o.z + g.gameSpeed < 1 ∧
        |o.x - g.playerX| < 1.2 := ⟨ha, h1, h2, h3⟩
    simp only [collideOne, gameOverStep]
    rw [if_pos hcc, if_neg hnc, if_neg hns, if_pos hf2]
    split_ifs <;> simp
  · simp only [collideOne, gameOverStep]
    rw [if_neg hf]
    by_cases hc : o.active = true ∧ -1 < o.z + g.gameSpeed ∧ o.z + g.gameSpeed < 1 ∧
        |o.x - g.playerX| < 1.2
    · rw [if_pos hc]
      by_cases hcoin : o.ctype = CollisionType.COIN
      · rw [if_pos hcoin]; split_ifs <;> simp
      · rw [if_neg hcoin]
        have hsafe : (o.ctype = CollisionType.JUMP ∧ g.playerY > 1.2) ∨
            (o.ctype = CollisionType.DUCK ∧ g.isRolling = true) := by
          by_contra hns
          exact hf ⟨hc.1, hc.2.1, hc.2.2.1, hc.2.2.2, hcoin, hns⟩
        rw [if_pos hsafe]
        split_ifs <;> simp
    · rw [if_neg hc]
      split_ifs <;> simp

theorem collideList_payloads (g : Game) (l : List Obstacle) :
    (collideList g l).1.gameOverPayloads.length =
      g.gameOverPayloads.length + l.countP (fun o => decide (fatalContact g o)) := by
  induction l with
  | nil => simp [collideList]
  | cons o rest ih =>
      simp only [collideList]
      have hk := collideList_keeps g rest
      have h1 := collideOne_payloads (collideList g rest).1 o
      have heq : fatalContact (collideList g rest).1 o ↔ fatalContact g o := by
        unfold fatalContact
        rw [hk.1, hk.2.1, hk.2.2.1, hk.2.2.2.1]
      cases hq : (collideOne (collideList g rest).1 o).2 <;> simp only [hq] <;>
        rw [h1, ih, List.countP_cons] <;>
        by_cases hf : fatalContact g o <;> simp [hf, heq] <;> omega

/-- C9 (amended): `gameOver()` carries no idempotence guard, so within
one tick's collision scan `onGameOver` is invoked once per unsurvived
contact — exactly once per run only when the terminal tick has a single
fatal contact; after the terminal transition no tick executes, so no
further invocation occurs. -/
theorem game_over_invocations (g : Game) :
    (collideScan g).gameOverPayloads.length =
      g.gameOverPayloads.length + fatalCount g ∧
    (fatalCount g = 1 →
      (collideScan g).gameOverPayloads.length = g.gameOverPayloads.length + 1) ∧
    (∀ r : RowRand, g.gstate ≠ GState.PLAYING → tick g r = g) := by
  have h1 : (collideScan g).gameOverPayloads.length =
      g.gameOverPayloads.length + fatalCount g := by
    unfold collideScan fatalCount
    exact collideList_payloads g g.obstacles
  refine ⟨h1, fun hone => by rw [h1, hone], fun r hns => ?_⟩
  unfold tick
  rw [if_neg hns]

/-- State with two solid hazards in the player's lane whose advanced
positions both fall inside the contact window of the same tick. -/
def gDoubleHit : Game :=
  { initGame with
      gstate := GState.PLAYING
      gameSpeed := 0.6
      obstacles := [⟨0, -1.3, 0, CollisionType.SOLID, true⟩,
                    ⟨0, -0.9, 0, CollisionType.SOLID, true⟩] }

/-- C9 counterexample: a single tick of a run invokes `onGameOver`
twice (one payload per fatal contact), contradicting the claimed
exactly-once notification. -/
theorem game_over_invoked_twice :
    gDoubleHit.gameOverPayloads.length = 0 ∧
    (tick gDoubleHit rQuiet0).gameOverPayloads.length = 2 := by
  refine ⟨rfl, ?_⟩
  norm_num [tick, update, updateAI, physicsStep, collideScan, collideList, collideOne,
    gameOverStep, shouldSpawn, spawnObstacleRow, rowLane, chooseSafeLane, possibleLanes,
    hazardType, startSpeed, maxSpeed, speedIncrement, laneWidth, playerBaseY, gravity,
    spawnZ, gDoubleHit, rQuiet0, initGame]
  try simp
  try norm_num

/-- Witness for `game_over_invocations`: after the terminal transition
the tick is a no-op, and the scan equation holds at the double-hit
state. -/
theorem game_over_invocations_witness :
    tick { initGame with gstate := GState.GAME_OVER } rQuiet0 =
      { initGame with gstate := GState.GAME_OVER } ∧
    (collideScan gDoubleHit).gameOverPayloads.length =
      gDoubleHit.gameOverPayloads.length + fatalCount gDoubleHit := by
  exact ⟨(game_over_invocations { initGame with gstate := GState.GAME_OVER }).2.2 rQuiet0
      (by simp), (game_over_invocations gDoubleHit).1⟩

/-! ## C3: coin collection and the score report -/

/-- Playing state with an active coin in the player's lane about to enter
the contact window; no hazards anywhere. -/
def gCoinAhead : Game :=
  { initGame with
      gstate := GState.PLAYING
      gameSpeed := 0.6
      distanceTraveled := 100
      obstacles := [⟨0, -1.5, 0, CollisionType.COIN, true⟩] }

/-- The state after the collection tick, computed from the source
semantics: the internal score holds the `+500` bonus, but the reported
score (emitted before the collision scan) does not; the coin is
inactive; the next row spawn placed nothing (all draws `0.9`). -/
def gAfterCoin : Game :=
  { gstate := GState.PLAYING
    score := 1506
    reported := 1006
    distanceTraveled := 100.6002
    gameSpeed := 0.6002
    currentLane := 0
    lastSafeLane := 1
    playerX := 0
    playerY := 1
    playerVelocityY := 0
    isJumping := false
    isRolling := false
    rollTimer := 0
    autoPilotEnabled := false
    aiLaneChangeCooldown := 0
    obstacles := [⟨0, -0.8998, 0, CollisionType.COIN, false⟩]
    gameOverPayloads := [] }

set_option maxHeartbeats 4000000 in
/-- C3: the collection tick itself.  The coin contact adds `500` to the
internal score exactly once, deactivates the coin and causes no
game-over; but the score reported that tick (`1006`) was emitted before
the scan and does not include the bonus. -/
theorem coin_collection_tick : tick gCoinAhead rQuiet0 = gAfterCoin := by
  norm_num [tick, update, updateAI, physicsStep, collideScan, collideList, collideOne,
    gameOverStep, shouldSpawn, spawnObstacleRow, rowLane, chooseSafeLane, possibleLanes,
    hazardType, startSpeed, maxSpeed, speedIncrement, laneWidth, playerBaseY, gravity,
    spawnZ, gCoinAhead, gAfterCoin, rQuiet0, initGame]
  try simp
  try norm_num

set_option maxHeartbeats 4000000 in
/-- C3 (code bug): on the tick after collection the score is recomputed
as `⌊distance * 10⌋`, erasing the coin bonus: both the internal and the
reported score drop back to `1012 < 1506`.  The coin stays inactive, so
the bonus is also never re-awarded. -/
theorem coin_bonus_not_persistent :
    (tick gCoinAhead rQuiet0).score = 1506 ∧
    (tick gCoinAhead rQuiet0).reported = 1006 ∧
    (tick gCoinAhead rQuiet0).gstate = GState.PLAYING ∧
    (tick gCoinAhead rQuiet0).gameOverPayloads = [] ∧
    (tick (tick gCoinAhead rQuiet0) rQuiet0).reported = 1012 ∧
    (tick (tick gCoinAhead rQuiet0) rQuiet0).score = 1012 ∧
    (∀ o ∈ (tick (tick gCoinAhead rQuiet0) rQuiet0).obstacles, o.active = false) ∧
    (tick (tick gCoinAhead rQuiet0) rQuiet0).reported < (tick gCoinAhead rQuiet0).score := by
  rw [coin_collection_tick]
  have h2 : (tick gAfterCoin rQuiet0).reported = 1012 ∧
      (tick gAfterCoin rQuiet0).score = 1012 ∧
      (tick gAfterCoin rQuiet0).obstacles =
        [⟨0, -0.2994, 0, CollisionType.COIN, false⟩] := by
    norm_num [tick, update, updateAI, physicsStep, collideScan, collideList, collideOne,
      gameOverStep, shouldSpawn, spawnObstacleRow, rowLane, chooseSafeLane, possibleLanes,
      hazardType, startSpeed, maxSpeed, speedIncrement, laneWidth, playerBaseY, gravity,
      spawnZ, gAfterCoin, rQuiet0, initGame]
    try simp
    try norm_num
  refine ⟨rfl, rfl, rfl, rfl, h2.1, h2.2.1, ?_, ?_⟩
  · intro o ho
    rw [h2.2.2] at ho
    simp only [List.mem_singleton] at ho
    rw [ho]
  · rw [h2.1]; norm_num [gAfterCoin]
